import Mathlib

/-!
# NetworkPingComparator — a shallow embedding

This development embeds `src/network_ping_comparator.py` (class
`NetworkPingComparator`) and proves properties of the embedded program.

Modelling conventions:
* An IPv4 address is a `Nat` below `2^32`; its dotted-quad rendering has
  `toString (a % 256)` as its final component, so the Python expression
  `str(host).split('.')[3]` is embedded as `octetStr`.
* The external ping processes are modelled by an environment function
  `code : Nat → Nat → Nat` giving the exit status `code round host` that the
  subprocess spawned for `host` in round `round` (0-based) returns from
  `wait()`; exit status 0 means the host answered.  For claims about the
  probe mechanism itself failing, an `Except`-valued environment is used.
* `multiprocessing`: `run()` spawns one child process per network and joins
  both.  A child that raises (e.g. `ValueError` from `ipaddress.ip_network`)
  terminates without writing its key into the shared `Manager().dict()`; the
  parent's `join()` still returns normally.  `runModel` reflects this: the
  shared dict is an association list that only receives entries from children
  that completed.
-/

set_option maxRecDepth 4096
set_option linter.unusedVariables false

/-- Final dotted component of the rendering of address `a`, as Python's
`str(host).split('.')[3]` produces it (`a` renders as `w.x.y.z` with
`z = a % 256`). -/
def octetStr (a : Nat) : String := toString (a % 256)

/-- Embedding of `ipaddress.ip_network(...).hosts()` (CPython): for prefix
length at most 30 it enumerates `network+1 .. broadcast-1` in ascending
order; a /31 yields both of its addresses and a /32 yields its single
address. -/
def hostsOf (base plen : Nat) : List Nat :=
  if plen = 32 then [base]
  else if plen = 31 then [base, base + 1]
  else (List.range (2 ^ (32 - plen) - 2)).map (fun i => base + 1 + i)

/-- Split a character list at every occurrence of `sep`, keeping empty
pieces, as Python's `str.split(sep)` does. -/
def splitOnChar (sep : Char) : List Char → List (List Char)
  | [] => [[]]
  | c :: cs =>
    match splitOnChar sep cs with
    | [] => if c = sep then [[], [c]] else [[c]]
    | t :: ts => if c = sep then [] :: t :: ts else (c :: t) :: ts

/-- Split a string at every occurrence of the character `sep`. -/
def pySplit (sep : Char) (s : String) : List String :=
  (splitOnChar sep s.data).map (fun l => ⟨l⟩)

/-- Decimal numeral with no leading zero (Python's `ipaddress` rejects
leading zeros in octets and prefix lengths). -/
def parseDecimalNoLead (s : String) : Option Nat :=
  if s.data ≠ [] ∧ s.data.all Char.isDigit ∧ (s.data.length = 1 ∨ s.data.head? ≠ some '0')
  then some (s.data.foldl (fun n c => n * 10 + (c.toNat - 48)) 0) else none

/-- One dotted-quad component: decimal, no leading zero, at most 255. -/
def parseOctetPart (s : String) : Option Nat :=
  (parseDecimalNoLead s).bind (fun n => if n ≤ 255 then some n else none)

/-- Dotted-quad IPv4 address as a `Nat`. -/
def parseIPv4Addr (s : String) : Option Nat :=
  match (pySplit '.' s).mapM parseOctetPart with
  | some [a, b, c, d] => some (((a * 256 + b) * 256 + c) * 256 + d)
  | _ => none

/-- Embedding of `ipaddress.ip_network(s)` in its default strict mode for the
dotted-quad CIDR form used by this program: yields `(base, prefixlen)`, and
`none` where CPython raises `ValueError` (malformed string, prefix length
above 32, or host bits set). -/
def parseIPv4Network (s : String) : Option (Nat × Nat) :=
  match pySplit '/' s with
  | [a] => (parseIPv4Addr a).map (fun b => (b, 32))
  | [a, p] =>
    (parseIPv4Addr a).bind (fun base =>
      (parseDecimalNoLead p).bind (fun n =>
        if n ≤ 32 ∧ base % 2 ^ (32 - n) = 0 then some (base, n) else none))
  | _ => none

/-- Embedding of `network.rsplit('.', 1)[0]`: everything before the last dot
(the whole string when it has no dot). -/
def pyRsplitDot (s : String) : String :=
  if s.data.contains '.'
  then ⟨((s.data.reverse.dropWhile (fun c => c != '.')).drop 1).reverse⟩
  else s

/-- Substring after the last dot (used to reason about rendered report
entries). -/
def afterLastDot (s : String) : String :=
  ⟨(s.data.reverse.takeWhile (fun c => c != '.')).reverse⟩

/-- Embedding of `__spawn_ping_procs`: the hosts a round actually pings, in
order — every current host whose final octet string is not excluded.  (Python
guards with `if self.excluded_host:` first, but filtering with an empty
exclusion list removes nothing, so the guard is behaviourally redundant; the
`None` case is modelled by the empty list.) -/
def spawnHosts (excl : List String) (hosts : List Nat) : List Nat :=
  hosts.filter (fun h => decide (octetStr h ∉ excl))

/-- Embedding of the failure collection in `__ping_network`: the spawned
hosts whose subprocess exit status is nonzero, in spawn order. -/
def pingRound (c : Nat → Nat) (probed : List Nat) : List Nat :=
  probed.filter (fun h => decide (c h ≠ 0))

/-- Result of one subnet sweep: the final failure list, and the per-round
log of (hosts actually pinged, failures collected) in round order. -/
structure SweepResult where
  failures : List Nat
  log : List (List Nat × List Nat)
deriving DecidableEq

/-- Embedding of the retry loop in `not_pingable` (`for _ in
range(NUM_ATTEMPTS-1): if not failures: break else: self.hosts = failures;
failures = self.__ping_network()`).  `fuel` is the number of remaining loop
iterations; the round index supplied to the exit-code environment is the
number of rounds already logged. -/
def retryLoop (excl : List String) (code : Nat → Nat → Nat) :
    Nat → List Nat → List (List Nat × List Nat) → SweepResult
  | 0, fs, log => ⟨fs, log⟩
  | fuel + 1, fs, log =>
    if fs = [] then ⟨fs, log⟩
    else
      let probed := spawnHosts excl fs
      let fs2 := pingRound (code log.length) probed
      retryLoop excl code fuel fs2 (log ++ [(probed, fs2)])

/-- Embedding of `not_pingable` applied to an already enumerated host list:
round 1 pings every non-excluded host, then the retry loop runs at most
`attempts - 1` further rounds over the failures only. -/
def notPingable (excl : List String) (code : Nat → Nat → Nat)
    (attempts : Nat) (hosts : List Nat) : SweepResult :=
  let probed := spawnHosts excl hosts
  let fs := pingRound (code 0) probed
  retryLoop excl code (attempts - 1) fs [(probed, fs)]

/-- Error raised by `Popen` itself when the probe mechanism cannot execute
(the `OSError` family: ping binary missing, permission denied); the spec
names this class of failure `ProbeMechanismError`. -/
inductive ProbeMechanismError where
  | mechanismFailure : String → ProbeMechanismError
deriving DecidableEq

/-- Embedding of `__spawn_ping_procs` with a fallible probe mechanism
`pr` : spawning walks the non-excluded hosts in order and collects
`(host, exit status)`; the first `Popen` failure propagates (hosts after it
are not spawned). -/
def spawnPingProcsE (excl : List String) (pr : Nat → Except ProbeMechanismError Nat)
    (hosts : List Nat) : Except ProbeMechanismError (List (Nat × Nat)) :=
  (spawnHosts excl hosts).mapM (fun h => (pr h).map (fun c => (h, c)))

/-- Embedding of `__ping_network` with a fallible probe mechanism: wait for
every spawned subprocess, keep the hosts whose exit status is nonzero. -/
def pingNetworkE (excl : List String) (pr : Nat → Except ProbeMechanismError Nat)
    (hosts : List Nat) : Except ProbeMechanismError (List Nat) :=
  (spawnPingProcsE excl pr hosts).map
    (fun codes => (codes.filter (fun pc => decide (pc.2 ≠ 0))).map Prod.fst)

/-- Final octet identifier strings of a failure list, as `output()` builds
them: `[str(ip).split('.')[3] for ip in self.ping_failures[network]]`. -/
def octetsOf (fails : List Nat) : List String := fails.map octetStr

/-- Admissible models of CPython's iteration order over a `set`: listing a
set built from the elements of `l` yields the distinct elements of `l` in
some order.  CPython specifies nothing beyond this (the order depends on
string hashing). -/
def IsPySetEnum (enum : List String → List String) : Prop :=
  ∀ l : List String, List.Perm (enum l) l.dedup

/-- One admissible set-iteration order (first-kept occurrences). -/
def dedupEnum : List String → List String := fun l => l.dedup

/-- Another admissible set-iteration order (reversed). -/
def revEnum : List String → List String := fun l => l.dedup.reverse

/-- Embedding of `list(set(a).difference(b))`: the elements of `a` not in
`b`, listed in the set's iteration order `enum`. -/
def sideDiff (enum : List String → List String) (a b : List String) : List String :=
  enum (a.filter (fun o => decide (o ∉ b)))

/-- Embedding of the rendering comprehension in `output()`:
`[f"{subnet}.{ip}" for ip in side]`. -/
def renderSide (subnetStr : String) (ids : List String) : List String :=
  ids.map (fun o => subnetStr ++ "." ++ o)

/-- Embedding of the report constructed by `output()` from the two stored
failure lists: subnet-1-only octets rendered with subnet 1's prefix, then
subnet-2-only octets rendered with subnet 2's prefix. -/
def mismatchReport (enum : List String → List String) (net1 net2 : String)
    (f1 f2 : List Nat) : List String :=
  renderSide (pyRsplitDot net1) (sideDiff enum (octetsOf f1) (octetsOf f2)) ++
  renderSide (pyRsplitDot net2) (sideDiff enum (octetsOf f2) (octetsOf f1))

/-- Python `KeyError` raised when `output()` reads a network's entry that a
crashed child never wrote into the shared dict. -/
inductive PyKeyError where
  | keyError : PyKeyError
deriving DecidableEq

/-- Comparator state visible to the parent process: the two configured
networks, the exclusion list (`None` modelled by `[]`), and the shared
failure dict (`None` before `run()`).  `self.hosts` is only ever mutated
inside the child processes, so it is not part of the parent state. -/
structure CompState where
  networks : String × String
  excludedHost : List String
  pingFailures : Option (List (String × List Nat))
deriving DecidableEq

/-- One child process of `run()`: parse the network (a `ValueError` kills
the child before any ping is spawned, so it produces nothing), enumerate
its hosts, and sweep them. -/
def childSweep (excl : List String) (code : Nat → Nat → Nat) (attempts : Nat)
    (net : String) : Option SweepResult :=
  (parseIPv4Network net).map (fun bp => notPingable excl code attempts (hostsOf bp.1 bp.2))

/-- Embedding of `run()`: the shared `Manager().dict()` after both children
are joined.  A child that completed wrote its network's failure list; a child
that died on `ValueError` wrote nothing and the `join()` still succeeds.
`code` gives each network's per-round exit statuses. -/
def runModel (excl : List String) (code : String → Nat → Nat → Nat) (attempts : Nat)
    (nets : String × String) : List (String × List Nat) :=
  [nets.1, nets.2].filterMap
    (fun n => (childSweep excl (code n) attempts n).map (fun r => (n, r.failures)))

/-- Report computation of `output()` when `ping_failures` is present: read
both networks' entries from the dict (`KeyError` when one is missing) and
build the mismatch report. -/
def outputCompute (enum : List String → List String) (nets : String × String)
    (d : List (String × List Nat)) : Except PyKeyError (List String) :=
  match d.lookup nets.1, d.lookup nets.2 with
  | some f1, some f2 => .ok (mismatchReport enum nets.1 nets.2 f1 f2)
  | _, _ => .error .keyError

/-- Embedding of `output()` as a state transformer.  With stored failure
data it returns the report and leaves the state unchanged.  With
`ping_failures` still `None` it performs `self.run()`, evaluates the
recursive `self.output()` call — whose value the source discards — and then
falls off the end of the function, i.e. returns Python `None` (`Option.none`
here); a `KeyError` raised by the recursive call propagates. -/
def outputStep (enum : List String → List String) (code : String → Nat → Nat → Nat)
    (attempts : Nat) (st : CompState) :
    Except PyKeyError (Option (List String)) × CompState :=
  match st.pingFailures with
  | some d => ((outputCompute enum st.networks d).map some, st)
  | none =>
    let d := runModel st.excludedHost code attempts st.networks
    let st2 : CompState := { st with pingFailures := some d }
    match outputCompute enum st.networks d with
    | .error e => (.error e, st2)
    | .ok _ => (.ok none, st2)

/-- Exit-code environment for the C1 scenario: host octet 3 of subnet 1 is
down in every round; everything else answers. -/
def failScenarioCode : String → Nat → Nat → Nat :=
  fun n _ h => if n = "192.168.1.0/29" ∧ h % 256 = 3 then 1 else 0

/-- Lexicographic comparison of code-point sequences. -/
def lexLeB : List Nat → List Nat → Bool
  | [], _ => true
  | _ :: _, [] => false
  | a :: as, b :: bs => if a < b then true else if a = b then lexLeB as bs else false

/-- String order used by sorting: lexicographic on code points (the order
both Lean's `String` order and Python's `sorted` induce on these decimal
octet strings). -/
def strLe (a b : String) : Prop :=
  lexLeB (a.data.map Char.toNat) (b.data.map Char.toNat) = true

instance (a b : String) : Decidable (strLe a b) := by
  unfold strLe
  infer_instance

/-- Numeric order on decimal numerals without leading zeros (shortlex). -/
def numLe (a b : String) : Prop :=
  a.data.length < b.data.length ∨ (a.data.length = b.data.length ∧ strLe a b)

instance (a b : String) : Decidable (numLe a b) := by
  unfold numLe
  infer_instance

lemma mem_spawnHosts {excl : List String} {hosts : List Nat} {h : Nat} :
    h ∈ spawnHosts excl hosts ↔ h ∈ hosts ∧ octetStr h ∉ excl := by
  simp [spawnHosts, List.mem_filter]

lemma spawnHosts_subset (excl : List String) (hosts : List Nat) :
    spawnHosts excl hosts ⊆ hosts :=
  fun _ hx => (List.mem_filter.mp hx).1

lemma spawnHosts_eq_self {excl : List String} {l : List Nat}
    (h : ∀ x ∈ l, octetStr x ∉ excl) : spawnHosts excl l = l := by
  simp only [spawnHosts, List.filter_eq_self]
  intro a ha
  simpa using h a ha

lemma mem_pingRound {c : Nat → Nat} {probed : List Nat} {h : Nat} :
    h ∈ pingRound c probed ↔ h ∈ probed ∧ c h ≠ 0 := by
  simp [pingRound, List.mem_filter]

lemma pingRound_subset (c : Nat → Nat) (probed : List Nat) :
    pingRound c probed ⊆ probed :=
  fun _ hx => (List.mem_filter.mp hx).1

lemma retryLoop_failures_subset (excl : List String) (code : Nat → Nat → Nat) :
    ∀ fuel fs log, (retryLoop excl code fuel fs log).failures ⊆ fs := by
  intro fuel
  induction fuel with
  | zero => intro fs log; exact fun _ hx => hx
  | succ n ih =>
    intro fs log
    by_cases hfs : fs = []
    · simp [retryLoop, hfs]
    · simp only [retryLoop, if_neg hfs]
      intro x hx
      have hx2 := ih _ _ hx
      exact spawnHosts_subset _ _ (pingRound_subset _ _ hx2)

lemma retryLoop_failures_pred (excl : List String) (code : Nat → Nat → Nat) :
    ∀ fuel fs log, (∀ x ∈ fs, octetStr x ∉ excl) →
      ∀ x ∈ (retryLoop excl code fuel fs log).failures, octetStr x ∉ excl := by
  intro fuel
  induction fuel with
  | zero => intro fs log hp; exact hp
  | succ n ih =>
    intro fs log hp
    by_cases hfs : fs = []
    · simp only [retryLoop, if_pos hfs]
      exact hp
    · simp only [retryLoop, if_neg hfs]
      refine ih _ _ ?_
      intro x hx
      exact (mem_spawnHosts.mp (pingRound_subset _ _ hx)).2

lemma retryLoop_log_probed (excl : List String) (code : Nat → Nat → Nat) :
    ∀ fuel fs log, (∀ pr ∈ log, ∀ x ∈ pr.1, octetStr x ∉ excl) →
      ∀ pr ∈ (retryLoop excl code fuel fs log).log, ∀ x ∈ pr.1, octetStr x ∉ excl := by
  intro fuel
  induction fuel with
  | zero => intro fs log hp; exact hp
  | succ n ih =>
    intro fs log hp
    by_cases hfs : fs = []
    · simpa [retryLoop, hfs] using hp
    · simp only [retryLoop, if_neg hfs]
      refine ih _ _ ?_
      intro pr hpr
      rcases List.mem_append.mp hpr with hl | hr
      · exact hp pr hl
      · have : pr = (spawnHosts excl fs, pingRound (code log.length) (spawnHosts excl fs)) := by
          simpa using hr
        subst this
        intro x hx
        exact (mem_spawnHosts.mp hx).2

lemma getLast?_append_singleton {α : Type} (l : List α) (a : α) :
    (l ++ [a]).getLast? = some a := by
  induction l with
  | nil => rfl
  | cons b t ih =>
    rcases t with _ | ⟨c, t⟩
    · rfl
    · simpa using ih

lemma retryLoop_chain (excl : List String) (code : Nat → Nat → Nat) :
    ∀ fuel fs log,
      (∃ e, log.getLast? = some e ∧ e.2 = fs) →
      (∀ x ∈ fs, octetStr x ∉ excl) →
      (∀ pr ∈ log, pr.2 ⊆ pr.1) →
      List.Chain' (fun a b => b.1 = a.2) log →
      (∀ pr ∈ (retryLoop excl code fuel fs log).log, pr.2 ⊆ pr.1) ∧
      List.Chain' (fun a b => b.1 = a.2) (retryLoop excl code fuel fs log).log ∧
      (∃ e, (retryLoop excl code fuel fs log).log.getLast? = some e ∧
        e.2 = (retryLoop excl code fuel fs log).failures) := by
  intro fuel
  induction fuel with
  | zero =>
    intro fs log hlast hpred hsub hchain
    exact ⟨hsub, hchain, hlast⟩
  | succ n ih =>
    intro fs log hlast hpred hsub hchain
    by_cases hfs : fs = []
    · simp only [retryLoop, if_pos hfs]
      exact ⟨hsub, hchain, hlast⟩
    · simp only [retryLoop, if_neg hfs]
      have hspawn : spawnHosts excl fs = fs := spawnHosts_eq_self hpred
      refine ih _ _ ?_ ?_ ?_ ?_
      · exact ⟨_, getLast?_append_singleton _ _, rfl⟩
      · intro x hx
        exact (mem_spawnHosts.mp (pingRound_subset _ _ hx)).2
      · intro pr hpr
        rcases List.mem_append.mp hpr with hl | hr
        · exact hsub pr hl
        · have : pr = (spawnHosts excl fs, pingRound (code log.length) (spawnHosts excl fs)) := by
            simpa using hr
          subst this
          exact pingRound_subset _ _
      · rw [List.chain'_append]
        refine ⟨hchain, List.chain'_singleton _, ?_⟩
        intro x hx y hy
        rcases hlast with ⟨e, he, he2⟩
        rw [he] at hx
        simp only [Option.mem_def, Option.some.injEq] at hx
        simp only [List.head?_cons, Option.mem_def, Option.some.injEq] at hy
        subst hx; subst hy
        simpa [hspawn] using he2.symm

lemma notPingable_failures_subset (excl : List String) (code : Nat → Nat → Nat)
    (attempts : Nat) (hosts : List Nat) :
    (notPingable excl code attempts hosts).failures ⊆ spawnHosts excl hosts := by
  intro x hx
  exact pingRound_subset _ _ (retryLoop_failures_subset _ _ _ _ _ hx)

lemma notPingable_failures_pred (excl : List String) (code : Nat → Nat → Nat)
    (attempts : Nat) (hosts : List Nat) :
    ∀ x ∈ (notPingable excl code attempts hosts).failures, octetStr x ∉ excl := by
  refine retryLoop_failures_pred _ _ _ _ _ ?_
  intro x hx
  exact (mem_spawnHosts.mp (pingRound_subset _ _ hx)).2

lemma notPingable_log_probed (excl : List String) (code : Nat → Nat → Nat)
    (attempts : Nat) (hosts : List Nat) :
    ∀ pr ∈ (notPingable excl code attempts hosts).log, ∀ x ∈ pr.1, octetStr x ∉ excl := by
  refine retryLoop_log_probed _ _ _ _ _ ?_
  intro pr hpr
  have : pr = (spawnHosts excl hosts, pingRound (code 0) (spawnHosts excl hosts)) := by
    simpa using hpr
  subst this
  intro x hx
  exact (mem_spawnHosts.mp hx).2

lemma mem_sideDiff {enum : List String → List String} (henum : IsPySetEnum enum)
    {a b : List String} {o : String} :
    o ∈ sideDiff enum a b ↔ o ∈ a ∧ o ∉ b := by
  unfold sideDiff
  rw [(henum _).mem_iff, List.mem_dedup, List.mem_filter]
  simp

lemma mem_renderSide {p : String} {ids : List String} {s : String} :
    s ∈ renderSide p ids ↔ ∃ o ∈ ids, s = p ++ "." ++ o := by
  simp [renderSide, eq_comm]

lemma strData_append (a b : String) : (a ++ b).data = a.data ++ b.data := by
  cases a; cases b; rfl

lemma takeWhile_until_dot {l2 : List Char} :
    ∀ l1 : List Char, (∀ c ∈ l1, (c != '.') = true) →
      (l1 ++ '.' :: l2).takeWhile (fun c => c != '.') = l1 := by
  intro l1
  induction l1 with
  | nil => intro; simp [List.takeWhile]
  | cons a t ih =>
    intro h
    have ha : (a != '.') = true := h a (List.mem_cons_self a t)
    have ht := ih fun c hc => h c (List.mem_cons_of_mem a hc)
    simp [List.takeWhile_cons, ha, ht]

lemma afterLastDot_concat (p o : String) (h : ∀ c ∈ o.data, (c != '.') = true) :
    afterLastDot (p ++ "." ++ o) = o := by
  have h1 : (p ++ "." ++ o).data.reverse = o.data.reverse ++ '.' :: p.data.reverse := by
    rw [strData_append, strData_append]
    simp [List.reverse_append]
  unfold afterLastDot
  rw [h1, takeWhile_until_dot o.data.reverse (fun c hc => h c (List.mem_reverse.mp hc)),
    List.reverse_reverse]

lemma dotFree_octetStr (a : Nat) : ∀ c ∈ (octetStr a).data, (c != '.') = true := by
  have hlt : a % 256 < 256 := Nat.mod_lt _ (by norm_num)
  have h : ∀ m : Fin 256, ∀ c ∈ (toString m.val).data, (c != '.') = true := by decide
  exact h ⟨a % 256, hlt⟩

lemma retryLoop_nil (excl : List String) (code : Nat → Nat → Nat) :
    ∀ fuel log, retryLoop excl code fuel [] log = ⟨[], log⟩ := by
  intro fuel log
  cases fuel <;> simp [retryLoop]

lemma retryLoop_log_extend (excl : List String) (code : Nat → Nat → Nat) :
    ∀ fuel fs log, ∃ l2, (retryLoop excl code fuel fs log).log = log ++ l2 := by
  intro fuel
  induction fuel with
  | zero => intro fs log; exact ⟨[], by simp [retryLoop]⟩
  | succ n ih =>
    intro fs log
    by_cases hfs : fs = []
    · exact ⟨[], by simp [retryLoop, hfs]⟩
    · simp only [retryLoop, if_neg hfs]
      obtain ⟨l2, hl2⟩ := ih _ (log ++ [(spawnHosts excl fs,
        pingRound (code log.length) (spawnHosts excl fs))])
      exact ⟨_, by rw [hl2, List.append_assoc]⟩

/-- C4 counterexample: the string 0.0.0.0/31 is a syntactically valid IPv4
CIDR, yet the host enumeration delegated to `ipaddress.ip_network(...).hosts()`
yields both addresses of the /31 pair — including the network address 0 —
and its size is 2, not `2^(32-31) - 2 = 0`. -/
theorem hosts_count_slash31_counterexample :
    parseIPv4Network "0.0.0.0/31" = some (0, 31) ∧
    hostsOf 0 31 = [0, 1] ∧
    (0 : Nat) ∈ hostsOf 0 31 ∧
    (hostsOf 0 31).length ≠ 2 ^ (32 - 31) - 2 :=
  ⟨rfl, rfl, by decide, by decide⟩

/-- C4 amended: for every subnet whose prefix length is at most 30, host
enumeration never includes the network address or the broadcast address and
its size is `2^(32-prefixlen) - 2`; a /31 enumerates both of its addresses
and a /32 its single address. -/
theorem hosts_excludes_network_and_broadcast (base plen : Nat) (hp : plen ≤ 30) :
    base ∉ hostsOf base plen ∧
    base + 2 ^ (32 - plen) - 1 ∉ hostsOf base plen ∧
    (hostsOf base plen).length = 2 ^ (32 - plen) - 2 ∧
    hostsOf base 31 = [base, base + 1] ∧
    hostsOf base 32 = [base] := by
  have h31 : plen ≠ 31 := by omega
  have h32 : plen ≠ 32 := by omega
  have h4 : 4 ≤ 2 ^ (32 - plen) := by
    calc (4 : Nat) = 2 ^ 2 := by norm_num
    _ ≤ 2 ^ (32 - plen) := Nat.pow_le_pow_right (by norm_num) (by omega)
  refine ⟨?_, ?_, ?_, by simp [hostsOf], by simp [hostsOf]⟩
  · simp only [hostsOf, if_neg h32, if_neg h31, List.mem_map, List.mem_range, not_exists]
    intro i
    omega
  · simp only [hostsOf, if_neg h32, if_neg h31, List.mem_map, List.mem_range, not_exists]
    intro i
    omega
  · simp [hostsOf, if_neg h32, if_neg h31]

/-- Witness for the amended C4 theorem at the concrete subnet 0.0.0.0/30. -/
theorem hosts_excludes_network_and_broadcast_witness :
    (30 : Nat) ≤ 30 ∧
    ((0 : Nat) ∉ hostsOf 0 30 ∧
     0 + 2 ^ (32 - 30) - 1 ∉ hostsOf 0 30 ∧
     (hostsOf 0 30).length = 2 ^ (32 - 30) - 2 ∧
     hostsOf 0 31 = [0, 0 + 1] ∧
     hostsOf 0 32 = [0]) :=
  ⟨by decide, hosts_excludes_network_and_broadcast 0 30 (by decide)⟩

/-- C6: when round 1 succeeds for every probed host, the sweep stores an
empty failure list and executes exactly one ping pass (the retry loop stops
immediately), for every attempts value at least 1. -/
theorem sweep_all_pass_single_round (excl : List String) (code : Nat → Nat → Nat)
    (attempts : Nat) (hosts : List Nat) (ha : 1 ≤ attempts)
    (hp : ∀ h ∈ spawnHosts excl hosts, code 0 h = 0) :
    notPingable excl code attempts hosts = ⟨[], [(spawnHosts excl hosts, [])]⟩ := by
  have hf0 : pingRound (code 0) (spawnHosts excl hosts) = [] := by
    simp only [pingRound, List.filter_eq_nil_iff]
    intro a ha2
    simp [hp a ha2]
  have hdef : notPingable excl code attempts hosts =
      retryLoop excl code (attempts - 1) (pingRound (code 0) (spawnHosts excl hosts))
        [(spawnHosts excl hosts, pingRound (code 0) (spawnHosts excl hosts))] := rfl
  rw [hdef, hf0, retryLoop_nil]

/-- Witness for C6: two hosts, exclusion of octet 0, every probe passing. -/
theorem sweep_all_pass_single_round_witness :
    (1 : Nat) ≤ 2 ∧
    notPingable ["0"] (fun _ _ => 0) 2 [1, 2] = ⟨[], [(spawnHosts ["0"] [1, 2], [])]⟩ :=
  ⟨by decide, sweep_all_pass_single_round ["0"] (fun _ _ => 0) 2 [1, 2] (by decide)
    (fun _ _ => rfl)⟩

/-- C10: across a sweep the failure data shrinks monotonically — every
round's failure list is a subset of the hosts probed that round, each retry
round probes exactly the previous round's failures, round 1 probes the
enumerated non-excluded candidates, and the final failure list is a subset
of those candidates. -/
theorem sweep_failure_sets_shrink (excl : List String) (code : Nat → Nat → Nat)
    (attempts : Nat) (hosts : List Nat) :
    (∀ pr ∈ (notPingable excl code attempts hosts).log, pr.2 ⊆ pr.1) ∧
    List.Chain' (fun a b => b.1 = a.2) (notPingable excl code attempts hosts).log ∧
    (notPingable excl code attempts hosts).log.head? =
      some (spawnHosts excl hosts, pingRound (code 0) (spawnHosts excl hosts)) ∧
    (notPingable excl code attempts hosts).failures ⊆ spawnHosts excl hosts := by
  have hmain := retryLoop_chain excl code (attempts - 1)
    (pingRound (code 0) (spawnHosts excl hosts))
    [(spawnHosts excl hosts, pingRound (code 0) (spawnHosts excl hosts))]
    ⟨_, rfl, rfl⟩
    (fun x hx => (mem_spawnHosts.mp (pingRound_subset _ _ hx)).2)
    (by
      intro pr hpr
      have : pr = (spawnHosts excl hosts, pingRound (code 0) (spawnHosts excl hosts)) := by
        simpa using hpr
      subst this
      exact pingRound_subset _ _)
    (List.chain'_singleton _)
  refine ⟨hmain.1, hmain.2.1, ?_, notPingable_failures_subset excl code attempts hosts⟩
  obtain ⟨l2, hl2⟩ := retryLoop_log_extend excl code (attempts - 1)
    (pingRound (code 0) (spawnHosts excl hosts))
    [(spawnHosts excl hosts, pingRound (code 0) (spawnHosts excl hosts))]
  show (notPingable excl code attempts hosts).log.head? = _
  unfold notPingable
  rw [hl2]
  rfl

/-- C3: with the default two attempts, after round 1 fails exactly hosts
`A` and `B`, round 2 re-probes exactly `[A, B]` and replaces the failure
list with its outcome — empty when both answer, `[A]` when only `A` still
fails. -/
theorem retry_narrowing (excl : List String) (code : Nat → Nat → Nat)
    (hosts : List Nat) (A B : Nat)
    (hf0 : pingRound (code 0) (spawnHosts excl hosts) = [A, B]) :
    ((notPingable excl code 2 hosts).log.map Prod.fst =
      [spawnHosts excl hosts, [A, B]]) ∧
    (code 1 A = 0 ∧ code 1 B = 0 → (notPingable excl code 2 hosts).failures = []) ∧
    (code 1 A ≠ 0 ∧ code 1 B = 0 → (notPingable excl code 2 hosts).failures = [A]) := by
  have hpredAB : ∀ x ∈ [A, B], octetStr x ∉ excl := by
    intro x hx
    have hx2 : x ∈ pingRound (code 0) (spawnHosts excl hosts) := by rw [hf0]; exact hx
    exact (mem_spawnHosts.mp (pingRound_subset _ _ hx2)).2
  have hspawn : spawnHosts excl [A, B] = [A, B] := spawnHosts_eq_self hpredAB
  have hAB : ([A, B] : List Nat) ≠ [] := by simp
  have hnp : notPingable excl code 2 hosts =
      ⟨pingRound (code 1) [A, B],
       [(spawnHosts excl hosts, [A, B]), ([A, B], pingRound (code 1) [A, B])]⟩ := by
    have hdef : notPingable excl code 2 hosts =
        retryLoop excl code 1 (pingRound (code 0) (spawnHosts excl hosts))
          [(spawnHosts excl hosts, pingRound (code 0) (spawnHosts excl hosts))] := rfl
    rw [hdef, hf0]
    simp [retryLoop, hAB, hspawn]
  refine ⟨by rw [hnp]; rfl, ?_, ?_⟩
  · rintro ⟨hA, hB⟩
    rw [hnp]
    simp [pingRound, hA, hB]
  · rintro ⟨hA, hB⟩
    rw [hnp]
    simp [pingRound, hA, hB]

/-- Witness for C3: hosts 5 and 6 both fail round 1; the environment passes
everything from round 2 on, so the implications fire with empty outcome. -/
theorem retry_narrowing_witness :
    pingRound ((fun r _ => if r = 0 then 1 else 0) 0)
      (spawnHosts [] [5, 6]) = [5, 6] ∧
    (((notPingable [] (fun r _ => if r = 0 then 1 else 0) 2 [5, 6]).log.map Prod.fst =
        [spawnHosts [] [5, 6], [5, 6]]) ∧
     ((fun r _ => if r = 0 then 1 else 0) 1 5 = 0 ∧
        (fun r _ => if r = 0 then 1 else 0) 1 6 = 0 →
        (notPingable [] (fun r _ => if r = 0 then 1 else 0) 2 [5, 6]).failures = []) ∧
     ((fun r _ => if r = 0 then 1 else 0) 1 5 ≠ 0 ∧
        (fun r _ => if r = 0 then 1 else 0) 1 6 = 0 →
        (notPingable [] (fun r _ => if r = 0 then 1 else 0) 2 [5, 6]).failures = [5])) :=
  ⟨by decide, retry_narrowing [] (fun r _ => if r = 0 then 1 else 0) [5, 6] 5 6 (by decide)⟩

/-- C2: for any pair of stored failure lists the report is the rendered
subnet-1-only identifiers followed by the rendered subnet-2-only identifiers,
where an identifier is on a side exactly when it occurs among that subnet's
failure octets and not among the other's; equal identifier sets give the
empty report; and `output()` with both entries stored returns exactly this
report.  Holds for every admissible set-iteration order. -/
theorem output_is_symmetric_difference
    (enum : List String → List String) (henum : IsPySetEnum enum)
    (n1 n2 : String) (f1 f2 : List Nat) :
    (∃ l1 l2, mismatchReport enum n1 n2 f1 f2 = l1 ++ l2 ∧
      (∀ s, s ∈ l1 ↔ ∃ o, o ∈ octetsOf f1 ∧ o ∉ octetsOf f2 ∧
        s = pyRsplitDot n1 ++ "." ++ o) ∧
      (∀ s, s ∈ l2 ↔ ∃ o, o ∈ octetsOf f2 ∧ o ∉ octetsOf f1 ∧
        s = pyRsplitDot n2 ++ "." ++ o)) ∧
    ((∀ o : String, o ∈ octetsOf f1 ↔ o ∈ octetsOf f2) →
      mismatchReport enum n1 n2 f1 f2 = []) ∧
    (n1 ≠ n2 → outputCompute enum (n1, n2) [(n1, f1), (n2, f2)] =
      .ok (mismatchReport enum n1 n2 f1 f2)) := by
  refine ⟨⟨_, _, rfl, ?_, ?_⟩, ?_, ?_⟩
  · intro s
    rw [mem_renderSide]
    constructor
    · rintro ⟨o, ho, hs⟩
      obtain ⟨h1, h2⟩ := (mem_sideDiff henum).mp ho
      exact ⟨o, h1, h2, hs⟩
    · rintro ⟨o, h1, h2, hs⟩
      exact ⟨o, (mem_sideDiff henum).mpr ⟨h1, h2⟩, hs⟩
  · intro s
    rw [mem_renderSide]
    constructor
    · rintro ⟨o, ho, hs⟩
      obtain ⟨h1, h2⟩ := (mem_sideDiff henum).mp ho
      exact ⟨o, h1, h2, hs⟩
    · rintro ⟨o, h1, h2, hs⟩
      exact ⟨o, (mem_sideDiff henum).mpr ⟨h1, h2⟩, hs⟩
  · intro heq
    have hside : ∀ a b : List String, (∀ o : String, o ∈ a ↔ o ∈ b) →
        sideDiff enum a b = [] := by
      intro a b hab
      have hfil : a.filter (fun o => decide (o ∉ b)) = [] := by
        simp only [List.filter_eq_nil_iff]
        intro o ho
        simp [(hab o).mp ho]
      unfold sideDiff
      rw [hfil]
      have := henum []
      simpa using this.eq_nil
    unfold mismatchReport
    rw [hside _ _ heq, hside _ _ (fun o => (heq o).symm)]
    rfl
  · intro hne
    have hl1 : List.lookup n1 [(n1, f1), (n2, f2)] = some f1 := by
      simp [List.lookup]
    have hb : (n2 == n1) = false := by
      simp only [beq_eq_false_iff_ne, ne_eq]
      exact Ne.symm hne
    have hl2 : List.lookup n2 [(n1, f1), (n2, f2)] = some f2 := by
      simp [List.lookup, hb]
    unfold outputCompute
    rw [hl1, hl2]

/-- Witness for C2 at the spec's own scenario: subnet 1 fails host 50 and
subnet 2 fails nothing, with the first-occurrence set-iteration order. -/
theorem output_is_symmetric_difference_witness :
    IsPySetEnum dedupEnum ∧
    ((∃ l1 l2, mismatchReport dedupEnum "10.0.0.0/24" "10.0.1.0/24" [50] [] = l1 ++ l2 ∧
      (∀ s, s ∈ l1 ↔ ∃ o, o ∈ octetsOf [50] ∧ o ∉ octetsOf [] ∧
        s = pyRsplitDot "10.0.0.0/24" ++ "." ++ o) ∧
      (∀ s, s ∈ l2 ↔ ∃ o, o ∈ octetsOf [] ∧ o ∉ octetsOf [50] ∧
        s = pyRsplitDot "10.0.1.0/24" ++ "." ++ o)) ∧
    ((∀ o : String, o ∈ octetsOf [50] ↔ o ∈ octetsOf []) →
      mismatchReport dedupEnum "10.0.0.0/24" "10.0.1.0/24" [50] [] = []) ∧
    ("10.0.0.0/24" ≠ "10.0.1.0/24" →
      outputCompute dedupEnum ("10.0.0.0/24", "10.0.1.0/24") [("10.0.0.0/24", [50]), ("10.0.1.0/24", [])] =
        .ok (mismatchReport dedupEnum "10.0.0.0/24" "10.0.1.0/24" [50] []))) :=
  ⟨fun _ => List.Perm.refl _,
   output_is_symmetric_difference dedupEnum (fun _ => List.Perm.refl _)
     "10.0.0.0/24" "10.0.1.0/24" [50] []⟩

/-- C7: a host whose final-octet identifier is excluded is pinged in no
round of either subnet's sweep, is in neither final failure list, and its
rendered address (under either subnet's prefix) is absent from the mismatch
report built from the two sweeps. -/
theorem excluded_host_never_probed_or_reported
    (enum : List String → List String) (henum : IsPySetEnum enum)
    (excl : List String) (code1 code2 : Nat → Nat → Nat) (attempts : Nat)
    (hosts1 hosts2 : List Nat) (n1 n2 : String) (h : Nat)
    (hex : octetStr h ∈ excl) :
    (∀ pr ∈ (notPingable excl code1 attempts hosts1).log, h ∉ pr.1) ∧
    (∀ pr ∈ (notPingable excl code2 attempts hosts2).log, h ∉ pr.1) ∧
    h ∉ (notPingable excl code1 attempts hosts1).failures ∧
    h ∉ (notPingable excl code2 attempts hosts2).failures ∧
    pyRsplitDot n1 ++ "." ++ octetStr h ∉
      mismatchReport enum n1 n2 (notPingable excl code1 attempts hosts1).failures
        (notPingable excl code2 attempts hosts2).failures ∧
    pyRsplitDot n2 ++ "." ++ octetStr h ∉
      mismatchReport enum n1 n2 (notPingable excl code1 attempts hosts1).failures
        (notPingable excl code2 attempts hosts2).failures := by
  have hprobe1 : ∀ pr ∈ (notPingable excl code1 attempts hosts1).log, h ∉ pr.1 := by
    intro pr hpr hmem
    exact notPingable_log_probed excl code1 attempts hosts1 pr hpr h hmem hex
  have hprobe2 : ∀ pr ∈ (notPingable excl code2 attempts hosts2).log, h ∉ pr.1 := by
    intro pr hpr hmem
    exact notPingable_log_probed excl code2 attempts hosts2 pr hpr h hmem hex
  have hfail1 : h ∉ (notPingable excl code1 attempts hosts1).failures := by
    intro hmem
    exact notPingable_failures_pred excl code1 attempts hosts1 h hmem hex
  have hfail2 : h ∉ (notPingable excl code2 attempts hosts2).failures := by
    intro hmem
    exact notPingable_failures_pred excl code2 attempts hosts2 h hmem hex
  have key : ∀ p : String, p ++ "." ++ octetStr h ∉
      mismatchReport enum n1 n2 (notPingable excl code1 attempts hosts1).failures
        (notPingable excl code2 attempts hosts2).failures := by
    intro p hmem
    rcases List.mem_append.mp hmem with hs | hs
    · obtain ⟨o, ho, hso⟩ := mem_renderSide.mp hs
      have ho1 : o ∈ octetsOf (notPingable excl code1 attempts hosts1).failures :=
        ((mem_sideDiff henum).mp ho).1
      obtain ⟨x, hx, hxo⟩ := List.mem_map.mp ho1
      have hxexcl : octetStr x ∉ excl :=
        notPingable_failures_pred excl code1 attempts hosts1 x hx
      have heq : octetStr h = o := by
        have e1 : afterLastDot (p ++ "." ++ octetStr h) = octetStr h :=
          afterLastDot_concat _ _ (dotFree_octetStr h)

        have e2 : afterLastDot (pyRsplitDot n1 ++ "." ++ o) = o := by
          rw [← hxo]
          exact afterLastDot_concat _ _ (dotFree_octetStr x)
        rw [← e1, hso, e2]
      rw [← hxo] at heq
      exact hxexcl (heq ▸ hex)
    · obtain ⟨o, ho, hso⟩ := mem_renderSide.mp hs
      have ho1 : o ∈ octetsOf (notPingable excl code2 attempts hosts2).failures :=
        ((mem_sideDiff henum).mp ho).1
      obtain ⟨x, hx, hxo⟩ := List.mem_map.mp ho1
      have hxexcl : octetStr x ∉ excl :=
        notPingable_failures_pred excl code2 attempts hosts2 x hx
      have heq : octetStr h = o := by
        have e1 : afterLastDot (p ++ "." ++ octetStr h) = octetStr h :=
          afterLastDot_concat _ _ (dotFree_octetStr h)
        have e2 : afterLastDot (pyRsplitDot n2 ++ "." ++ o) = o := by
          rw [← hxo]
          exact afterLastDot_concat _ _ (dotFree_octetStr x)
        rw [← e1, hso, e2]
      rw [← hxo] at heq
      exact hxexcl (heq ▸ hex)
  exact ⟨hprobe1, hprobe2, hfail1, hfail2, key _, key _⟩

/-- Witness for C7: octet 3 is excluded; hosts 3 and 259 carry that octet
and every probe fails, yet the excluded octet is never probed, collected or
reported. -/
theorem excluded_host_never_probed_or_reported_witness :
    IsPySetEnum dedupEnum ∧ octetStr 3 ∈ ["3"] ∧
    ((∀ pr ∈ (notPingable ["3"] (fun _ _ => 1) 2 [1, 3]).log, (3 : Nat) ∉ pr.1) ∧
     (∀ pr ∈ (notPingable ["3"] (fun _ _ => 1) 2 [259]).log, (3 : Nat) ∉ pr.1) ∧
     (3 : Nat) ∉ (notPingable ["3"] (fun _ _ => 1) 2 [1, 3]).failures ∧
     (3 : Nat) ∉ (notPingable ["3"] (fun _ _ => 1) 2 [259]).failures ∧
     pyRsplitDot "10.0.0.0/24" ++ "." ++ octetStr 3 ∉
       mismatchReport dedupEnum "10.0.0.0/24" "10.0.1.0/24"
         (notPingable ["3"] (fun _ _ => 1) 2 [1, 3]).failures
         (notPingable ["3"] (fun _ _ => 1) 2 [259]).failures ∧
     pyRsplitDot "10.0.1.0/24" ++ "." ++ octetStr 3 ∉
       mismatchReport dedupEnum "10.0.0.0/24" "10.0.1.0/24"
         (notPingable ["3"] (fun _ _ => 1) 2 [1, 3]).failures
         (notPingable ["3"] (fun _ _ => 1) 2 [259]).failures) :=
  ⟨fun _ => List.Perm.refl _, by decide,
   excluded_host_never_probed_or_reported dedupEnum (fun _ => List.Perm.refl _)
     ["3"] (fun _ _ => 1) (fun _ _ => 1) 2 [1, 3] [259] "10.0.0.0/24" "10.0.1.0/24" 3
     (by decide)⟩

lemma mapM_ok_of_ok {α β : Type} (f : α → Except ProbeMechanismError β) :
    ∀ (l : List α) (g : α → β), (∀ x ∈ l, f x = .ok (g x)) →
      l.mapM f = .ok (l.map g) := by
  intro l
  induction l with
  | nil => intro g hg; rfl
  | cons a t ih =>
    intro g hg
    rw [List.mapM_cons, hg a (List.mem_cons_self a t),
      ih g (fun x hx => hg x (List.mem_cons_of_mem a hx))]
    rfl

lemma mapM_ok_forall {α β : Type} (f : α → Except ProbeMechanismError β) :
    ∀ (l : List α) (r : List β), l.mapM f = .ok r → ∀ x ∈ l, ∃ v, f x = .ok v := by
  intro l
  induction l with
  | nil => intro r hr x hx; cases hx
  | cons a t ih =>
    intro r hr x hx
    rw [List.mapM_cons] at hr
    cases hfa : f a with
    | error e =>
      rw [hfa] at hr
      exact Except.noConfusion hr
    | ok b =>
      rw [hfa] at hr
      cases hft : t.mapM f with
      | error e =>
        rw [hft] at hr
        exact Except.noConfusion hr
      | ok bs =>
        rcases List.mem_cons.mp hx with hxa | hxt
        · exact ⟨b, hxa ▸ hfa⟩
        · exact ih bs hft x hxt

lemma filterFst_pingRound (c : Nat → Nat) :
    ∀ l : List Nat,
      ((l.map (fun h => (h, c h))).filter (fun pc => decide (pc.2 ≠ 0))).map Prod.fst =
        pingRound c l := by
  intro l
  induction l with
  | nil => rfl
  | cons a t ih =>
    simp only [List.map_cons, List.filter_cons, pingRound] at *
    by_cases hc : c a ≠ 0
    · simp [hc] at ih ⊢
      simp [ih]
    · simp [hc] at ih ⊢
      simp [ih]

/-- C9: a nonzero exit status never raises — with every subprocess created,
`__ping_network` returns normally and its failure list is exactly the
probed hosts whose exit status was nonzero (each such host is in it) —
while a failure of the probe mechanism itself (`Popen` raising for a host
that was to be probed) makes the sweep raise a `ProbeMechanismError`
instead of producing data. -/
theorem probe_nonzero_exit_is_failure (excl : List String) (c : Nat → Nat)
    (pr : Nat → Except ProbeMechanismError Nat) (hosts : List Nat) (h0 : Nat)
    (e : ProbeMechanismError) (hmem : h0 ∈ spawnHosts excl hosts)
    (herr : pr h0 = .error e) :
    pingNetworkE excl (fun h => .ok (c h)) hosts =
      .ok (pingRound c (spawnHosts excl hosts)) ∧
    (∀ h ∈ spawnHosts excl hosts, c h ≠ 0 →
      h ∈ pingRound c (spawnHosts excl hosts)) ∧
    (∃ e2, pingNetworkE excl pr hosts = .error e2) := by
  refine ⟨?_, ?_, ?_⟩
  · have hok : spawnPingProcsE excl (fun h => .ok (c h)) hosts =
        .ok ((spawnHosts excl hosts).map (fun h => (h, c h))) := by
      unfold spawnPingProcsE
      exact mapM_ok_of_ok _ _ _ (fun x hx => rfl)
    unfold pingNetworkE
    rw [hok]
    show Except.ok ((((spawnHosts excl hosts).map (fun h => (h, c h))).filter
        (fun pc => decide (pc.2 ≠ 0))).map Prod.fst) =
      Except.ok (pingRound c (spawnHosts excl hosts))
    rw [filterFst_pingRound]
  · intro h hh hc
    exact mem_pingRound.mpr ⟨hh, hc⟩
  · cases hsp : spawnPingProcsE excl pr hosts with
    | error e2 =>
      refine ⟨e2, ?_⟩
      unfold pingNetworkE
      rw [hsp]
      rfl
    | ok l =>
      obtain ⟨v, hv⟩ := mapM_ok_forall _ _ _ hsp h0 hmem
      rw [herr] at hv
      cases hv

/-- Witness for C9: host 1 is spawned, its mechanism fails; host 2 exits
nonzero and is reported unreachable without an error. -/
theorem probe_nonzero_exit_is_failure_witness :
    (1 : Nat) ∈ spawnHosts [] [1, 2] ∧
    ((fun h => if h = 1
        then (Except.error (ProbeMechanismError.mechanismFailure "ping missing"))
        else Except.ok 0) : Nat → Except ProbeMechanismError Nat) 1 =
      .error (ProbeMechanismError.mechanismFailure "ping missing") ∧
    (pingNetworkE [] (fun h => .ok ((fun h2 => if h2 = 2 then 1 else 0) h)) [1, 2] =
      .ok (pingRound (fun h2 => if h2 = 2 then 1 else 0) (spawnHosts [] [1, 2])) ∧
    (∀ h ∈ spawnHosts [] [1, 2], (fun h2 => if h2 = 2 then 1 else 0) h ≠ 0 →
      h ∈ pingRound (fun h2 => if h2 = 2 then 1 else 0) (spawnHosts [] [1, 2])) ∧
    (∃ e2, pingNetworkE []
      (fun h => if h = 1
        then (Except.error (ProbeMechanismError.mechanismFailure "ping missing"))
        else Except.ok 0) [1, 2] = .error e2)) :=
  ⟨by decide, rfl,
   probe_nonzero_exit_is_failure [] (fun h2 => if h2 = 2 then 1 else 0)
     (fun h => if h = 1
       then (Except.error (ProbeMechanismError.mechanismFailure "ping missing"))
       else Except.ok 0) [1, 2] 1
     (ProbeMechanismError.mechanismFailure "ping missing") (by decide) rfl⟩

/-- C1: calling `output()` before any sweep (with `ping_failures` still
`None`) does run the sweep implicitly, but the source never returns the
recursive `self.output()` value, so the call yields Python `None` even
though the freshly stored data would render the non-empty report
`["192.168.1.3"]`.  The missing return contradicts the method's own
`-> List[str]` annotation and docstring. -/
theorem output_before_run_returns_none :
    (outputStep dedupEnum failScenarioCode 2
        ⟨("192.168.1.0/29", "192.168.2.0/29"), [], none⟩).1 = .ok none ∧
    ((outputStep dedupEnum failScenarioCode 2
        ⟨("192.168.1.0/29", "192.168.2.0/29"), [], none⟩).2).pingFailures =
      some [("192.168.1.0/29", [3232235779]), ("192.168.2.0/29", [])] ∧
    outputCompute dedupEnum ("192.168.1.0/29", "192.168.2.0/29")
        [("192.168.1.0/29", [3232235779]), ("192.168.2.0/29", [])] =
      .ok ["192.168.1.3"] :=
  ⟨rfl, rfl, rfl⟩

/-- C5 counterexample: the sides of the report are not sorted before
rendering — the code applies no sort, so the side order is whatever the
Python set iteration yields.  Under the admissible iteration order `revEnum`
the subnet-1 side for failures with octets 1, 12, 3 comes out as
`["3", "12", "1"]`, which is sorted neither as strings nor numerically. -/
theorem report_side_unsorted_counterexample :
    IsPySetEnum revEnum ∧
    sideDiff revEnum (octetsOf [1, 12, 3]) (octetsOf []) = ["3", "12", "1"] ∧
    ¬ List.Pairwise strLe (sideDiff revEnum (octetsOf [1, 12, 3]) (octetsOf [])) ∧
    ¬ List.Pairwise numLe (sideDiff revEnum (octetsOf [1, 12, 3]) (octetsOf [])) := by
  have hside : sideDiff revEnum (octetsOf [1, 12, 3]) (octetsOf []) = ["3", "12", "1"] := by
    decide
  refine ⟨fun l => List.reverse_perm _, hside, ?_, ?_⟩
  · rw [hside]
    intro hp
    have h1 : strLe "3" "12" :=
      (List.pairwise_cons.mp hp).1 "12" (by simp)
    revert h1
    decide
  · rw [hside]
    intro hp
    have h1 : numLe "12" "1" :=
      (List.pairwise_cons.mp (List.pairwise_cons.mp hp).2).1 "1" (by simp)
    revert h1
    decide

/-- C5 amended: `output()` applies no sort — each side appears in the set's
iteration order — but the construction is deterministic for the stored data:
with failure data present, `output()` leaves the comparator state unchanged,
so invoking it again returns the identical ordered list. -/
theorem output_repeat_deterministic (enum : List String → List String)
    (code : String → Nat → Nat → Nat) (attempts : Nat) (st : CompState)
    (d : List (String × List Nat)) (hd : st.pingFailures = some d) :
    (outputStep enum code attempts st).2 = st ∧
    (outputStep enum code attempts ((outputStep enum code attempts st).2)).1 =
      (outputStep enum code attempts st).1 := by
  constructor <;> simp [outputStep, hd]

/-- Witness for the amended C5 theorem on a concrete stored dict. -/
theorem output_repeat_deterministic_witness :
    (CompState.mk ("10.0.0.0/24", "10.0.1.0/24") []
        (some [("10.0.0.0/24", [50]), ("10.0.1.0/24", [])])).pingFailures =
      some [("10.0.0.0/24", [50]), ("10.0.1.0/24", [])] ∧
    ((outputStep dedupEnum (fun _ _ _ => 0) 2
        (CompState.mk ("10.0.0.0/24", "10.0.1.0/24") []
          (some [("10.0.0.0/24", [50]), ("10.0.1.0/24", [])]))).2 =
      CompState.mk ("10.0.0.0/24", "10.0.1.0/24") []
        (some [("10.0.0.0/24", [50]), ("10.0.1.0/24", [])]) ∧
     (outputStep dedupEnum (fun _ _ _ => 0) 2
        ((outputStep dedupEnum (fun _ _ _ => 0) 2
          (CompState.mk ("10.0.0.0/24", "10.0.1.0/24") []
            (some [("10.0.0.0/24", [50]), ("10.0.1.0/24", [])]))).2)).1 =
      (outputStep dedupEnum (fun _ _ _ => 0) 2
        (CompState.mk ("10.0.0.0/24", "10.0.1.0/24") []
          (some [("10.0.0.0/24", [50]), ("10.0.1.0/24", [])]))).1) :=
  ⟨rfl, output_repeat_deterministic dedupEnum (fun _ _ _ => 0) 2 _ _ rfl⟩

/-- C8 counterexample: with subnet 2 malformed, the run neither surfaces an
error nor aborts before probing — the subnet-1 child probes its two hosts
in full, `run()` completes, the shared dict simply lacks subnet 2's key,
and a subsequent `output()` computation fails with a `KeyError`, not with
an invalid-subnet error. -/
theorem invalid_subnet_not_aborting_counterexample :
    parseIPv4Network "192.168.300.0/24" = none ∧
    childSweep [] (fun _ _ => 0) 2 "192.168.300.0/24" = none ∧
    childSweep [] (fun _ _ => 0) 2 "10.0.0.0/30" =
      some ⟨[], [([167772161, 167772162], [])]⟩ ∧
    runModel [] (fun _ _ _ => 0) 2 ("10.0.0.0/30", "192.168.300.0/24") =
      [("10.0.0.0/30", [])] ∧
    outputCompute dedupEnum ("10.0.0.0/30", "192.168.300.0/24")
      [("10.0.0.0/30", [])] = .error .keyError :=
  ⟨rfl, rfl, rfl, rfl, rfl⟩

/-- C8 amended: a malformed CIDR kills only that subnet's child before any
of that subnet's hosts are probed; the error is not surfaced to the caller —
`run()` completes with the other subnet swept normally, the shared dict
holds at most the valid subnet's entry, and the later report computation
raises `KeyError`. -/
theorem invalid_subnet_aborts_only_child (excl : List String)
    (code : String → Nat → Nat → Nat) (attempts : Nat) (n1 n2 : String)
    (enum : List String → List String)
    (hinv : parseIPv4Network n2 = none) :
    childSweep excl (code n2) attempts n2 = none ∧
    runModel excl code attempts (n1, n2) =
      ((childSweep excl (code n1) attempts n1).map (fun r => (n1, r.failures))).toList ∧
    outputCompute enum (n1, n2) (runModel excl code attempts (n1, n2)) =
      .error .keyError := by
  have h2 : childSweep excl (code n2) attempts n2 = none := by
    simp [childSweep, hinv]
  have hrm : runModel excl code attempts (n1, n2) =
      ((childSweep excl (code n1) attempts n1).map (fun r => (n1, r.failures))).toList := by
    unfold runModel
    rw [List.filterMap_cons, List.filterMap_cons]
    simp [h2]
    cases childSweep excl (code n1) attempts n1 <;> simp
  refine ⟨h2, hrm, ?_⟩
  rw [hrm]
  cases hc : childSweep excl (code n1) attempts n1 with
  | none => rfl
  | some r =>
    have hne : n1 ≠ n2 := by
      intro he
      rw [he, h2] at hc
      cases hc
    have hb : (n2 == n1) = false := by
      simp only [beq_eq_false_iff_ne, ne_eq]
      exact Ne.symm hne
    have hlook : List.lookup n2 [(n1, r.failures)] = none := by
      simp [List.lookup, hb]
    have hlook1 : List.lookup n1 [(n1, r.failures)] = some r.failures := by
      simp [List.lookup]
    show outputCompute enum (n1, n2) [(n1, r.failures)] = .error .keyError
    unfold outputCompute
    rw [hlook1, hlook]

/-- Witness for the amended C8 theorem at a concrete malformed subnet. -/
theorem invalid_subnet_aborts_only_child_witness :
    parseIPv4Network "not-a-subnet" = none ∧
    (childSweep ["0"] ((fun _ _ _ => 0) "not-a-subnet") 2 "not-a-subnet" = none ∧
     runModel ["0"] (fun _ _ _ => 0) 2 ("10.0.0.0/30", "not-a-subnet") =
       ((childSweep ["0"] ((fun _ _ _ => 0) "10.0.0.0/30") 2 "10.0.0.0/30").map
         (fun r => ("10.0.0.0/30", r.failures))).toList ∧
     outputCompute dedupEnum ("10.0.0.0/30", "not-a-subnet")
       (runModel ["0"] (fun _ _ _ => 0) 2 ("10.0.0.0/30", "not-a-subnet")) =
       .error .keyError) :=
  ⟨rfl, invalid_subnet_aborts_only_child ["0"] (fun _ _ _ => 0) 2
    "10.0.0.0/30" "not-a-subnet" dedupEnum rfl⟩

